import Mathlib

/-!
Verification development for the QTrader examples library.

The definitions below are a shallow embedding of the Python sources:
- library/indicators/template.py  (MyCustomIndicator, MyCustomMultiValueIndicator)
- library/strategies/sma_crossover.py  (SMACrossover)
- library/strategies/buy_and_hold.py  (BuyAndHoldStrategy)
- library/strategies/weekly_monday_friday.py  (WeeklyMondayFriday)

Python floats are modelled as exact rationals (prices) and reals (values
obtained through a square root); Python ints as integers; mutable object
state as explicit state passing; a method that can raise as Except.
-/

/-- Price bar. Only the closing price is read by the code under study. -/
structure Bar where
  close : ℚ
deriving DecidableEq

/-- Python slice l[-n:] for n >= 1: the last n elements of l (all of l when
n exceeds the length). -/
def lastN (n : ℕ) (l : List α) : List α := l.drop (l.length - n)

/-- Python slice l[a:b] for 0 <= a <= b <= len(l). -/
def listSlice (a b : ℕ) (l : List α) : List α := (l.drop a).take (b - a)

/-- Python sum(window) / len(window). -/
def mean (w : List ℚ) : ℚ := w.sum / (w.length : ℚ)

/-!  MyCustomIndicator (template.py lines 21-154): a simple-moving-average
indicator with a multiplier, offering a stateless batch mode (calculate)
and a stateful incremental mode (update).  -/

/-- State of MyCustomIndicator: configured parameters plus the mutable
fields assigned in the Python constructor. -/
structure MyCustomIndicator where
  period : ℤ
  multiplier : ℚ
  _prices : List ℚ
  _current_value : Option ℚ
deriving DecidableEq

/-- The object state produced by a successful call of the Python
constructor: parameters stored, empty price history, no cached value. -/
def MyCustomIndicator.fresh (period : ℤ) (multiplier : ℚ) : MyCustomIndicator :=
  ⟨period, multiplier, [], none⟩

/-- Constructor of MyCustomIndicator (template.py lines 40-61): stores the
parameters, initialises the state, then validates period >= 1 and
multiplier > 0, raising ValueError otherwise. -/
def MyCustomIndicator.init (period : ℤ) (multiplier : ℚ) :
    Except String MyCustomIndicator :=
  if period < 1 then .error "period must be >= 1"
  else if multiplier ≤ 0 then .error "multiplier must be > 0"
  else .ok (MyCustomIndicator.fresh period multiplier)

/-- Batch mode (template.py lines 63-96): for each index i of the price
list, None while i < period - 1, otherwise the mean of the window
prices[i - period + 1 : i + 1] times the multiplier. The method reads only
local variables and self parameters; it does not write the object state. -/
def MyCustomIndicator.calculate (ind : MyCustomIndicator) (bars : List Bar) :
    List (Option ℚ) :=
  let prices := bars.map Bar.close
  (List.range prices.length).map fun (i : ℕ) =>
    if (i : ℤ) < ind.period - 1 then none
    else some (mean (listSlice (i + 1 - ind.period.toNat) (i + 1) prices) * ind.multiplier)

/-- State-passing embedding of the batch mode: the Python method assigns
only to locals, so the resulting object state is the receiver unchanged. -/
def MyCustomIndicator.calculateS (ind : MyCustomIndicator) (bars : List Bar) :
    MyCustomIndicator × List (Option ℚ) :=
  (ind, ind.calculate bars)

/-- Incremental mode (template.py lines 98-124): append the close, return
None (and cache None) while fewer than period prices are stored, otherwise
cache and return the mean of the last period prices times the multiplier. -/
def MyCustomIndicator.update (ind : MyCustomIndicator) (bar : Bar) :
    MyCustomIndicator × Option ℚ :=
  let prices := ind._prices ++ [bar.close]
  if (prices.length : ℤ) < ind.period then
    (⟨ind.period, ind.multiplier, prices, none⟩, none)
  else
    let v := mean (lastN ind.period.toNat prices) * ind.multiplier
    (⟨ind.period, ind.multiplier, prices, some v⟩, some v)

/-- Reset (template.py lines 126-134): clear the price buffer and cached
value; period and multiplier stay unchanged. -/
def MyCustomIndicator.reset (ind : MyCustomIndicator) : MyCustomIndicator :=
  ⟨ind.period, ind.multiplier, [], none⟩

/-- Property value (template.py lines 136-144). -/
def MyCustomIndicator.value (ind : MyCustomIndicator) : Option ℚ :=
  ind._current_value

/-- Property is_ready (template.py lines 146-154). -/
def MyCustomIndicator.is_ready (ind : MyCustomIndicator) : Prop :=
  (ind._prices.length : ℤ) ≥ ind.period

instance (ind : MyCustomIndicator) : Decidable ind.is_ready := by
  unfold MyCustomIndicator.is_ready; infer_instance

/-- Feed a list of bars one at a time through update, collecting the
returned values in order. -/
def MyCustomIndicator.runUpdates (ind : MyCustomIndicator) :
    List Bar → MyCustomIndicator × List (Option ℚ)
  | [] => (ind, [])
  | b :: bs =>
    let s := ind.update b
    let r := s.1.runUpdates bs
    (r.1, s.2 :: r.2)

/-!  Generic form of the incremental loop, shared by both indicator
classes (their update bodies differ only in the per-window computation). -/

/-- One incremental step worth of output, as a function of the full price
history accumulated so far. -/
def streamStep (p : ℤ) (f : List ℚ → α) (hist : List ℚ) : Option α :=
  if (hist.length : ℤ) < p then none else some (f (lastN p.toNat hist))

/-- Incremental loop: starting from stored history hist, feed the closes
cs one at a time, emitting one output per close. -/
def streamRun (p : ℤ) (f : List ℚ → α) : List ℚ → List ℚ → List (Option α)
  | _, [] => []
  | hist, c :: cs =>
    streamStep p f (hist ++ [c]) :: streamRun p f (hist ++ [c]) cs

theorem streamRun_length (p : ℤ) (f : List ℚ → α) (hist cs : List ℚ) :
    (streamRun p f hist cs).length = cs.length := by
  induction cs generalizing hist with
  | nil => rfl
  | cons c cs ih => simp [streamRun, ih]

theorem streamRun_getElem? (p : ℤ) (f : List ℚ → α) (hist cs : List ℚ)
    (j : ℕ) (hj : j < cs.length) :
    (streamRun p f hist cs)[j]? = some (streamStep p f (hist ++ cs.take (j + 1))) := by
  induction cs generalizing hist j with
  | nil => simp at hj
  | cons c cs ih =>
    cases j with
    | zero => simp [streamRun]
    | succ j =>
      have hj2 : j < cs.length := by simpa using hj
      have := ih (hist ++ [c]) j hj2
      simpa [streamRun, List.append_assoc] using this

theorem take_length_of_lt (cs : List ℚ) (i : ℕ) (hi : i < cs.length) :
    (cs.take (i + 1)).length = i + 1 := by
  rw [List.length_take]
  omega

/-- The batch-mode window prices[i - p + 1 : i + 1] coincides with the last
p elements of the first i + 1 prices, once the window is full. -/
theorem listSlice_eq_lastN_take (p : ℕ) (cs : List ℚ) (i : ℕ)
    (hi : i < cs.length) :
    listSlice (i + 1 - p) (i + 1) cs = lastN p (cs.take (i + 1)) := by
  unfold listSlice lastN
  rw [take_length_of_lt cs i hi]
  rw [List.drop_take]

/-- The incremental outputs of MyCustomIndicator are the generic stream
loop instantiated with the SMA-times-multiplier window computation. -/
theorem MyCustomIndicator.runUpdates_eq_streamRun (ind : MyCustomIndicator)
    (bs : List Bar) :
    (ind.runUpdates bs).2 =
      streamRun ind.period (fun w => mean w * ind.multiplier) ind._prices (bs.map Bar.close) := by
  induction bs generalizing ind with
  | nil => rfl
  | cons b bs ih =>
    show (ind.update b).2 :: ((ind.update b).1.runUpdates bs).2 = _
    rw [ih]
    by_cases h : ((ind._prices ++ [b.close]).length : ℤ) < ind.period
    · simp only [MyCustomIndicator.update, if_pos h, List.map_cons, streamRun, streamStep]
    · simp only [MyCustomIndicator.update, if_neg h, List.map_cons, streamRun, streamStep]

theorem MyCustomIndicator.calculate_length (ind : MyCustomIndicator) (bars : List Bar) :
    (ind.calculate bars).length = bars.length := by
  unfold MyCustomIndicator.calculate
  simp only [List.length_map, List.length_range]

theorem MyCustomIndicator.calculate_getElem? (ind : MyCustomIndicator)
    (bars : List Bar) (i : ℕ) (hi : i < bars.length) :
    (ind.calculate bars)[i]? =
      some (if (i : ℤ) < ind.period - 1 then none
        else some (mean (listSlice (i + 1 - ind.period.toNat) (i + 1) (bars.map Bar.close)) * ind.multiplier)) := by
  unfold MyCustomIndicator.calculate
  have hi2 : i < (bars.map Bar.close).length := by simpa using hi
  rw [List.getElem?_map, List.getElem?_range (by simpa using hi2)]
  rfl

/-!  MyCustomMultiValueIndicator (template.py lines 158-276): a Bollinger
Bands style indicator producing upper, middle and lower values. The square
root forces real-valued outputs. -/

/-- Multi-value output: the dict with keys upper, middle, lower. -/
structure BandValue where
  upper : ℝ
  middle : ℝ
  lower : ℝ

/-- Window computation shared verbatim by the batch and incremental modes
of MyCustomMultiValueIndicator (template.py lines 215-228 and 248-259):
middle is the window mean, variance the population variance of the window,
std_dev its square root, and the bands sit num_std standard deviations
away from the middle. -/
noncomputable def bandsOf (num_std : ℚ) (window : List ℚ) : BandValue :=
  let middle := mean window
  let variance := (window.map fun p => (p - middle) ^ 2).sum / (window.length : ℚ)
  let std_dev : ℝ := Real.sqrt (variance : ℝ)
  ⟨(middle : ℝ) + num_std * std_dev, (middle : ℝ), (middle : ℝ) - num_std * std_dev⟩

/-- State of MyCustomMultiValueIndicator. -/
structure MyCustomMultiValueIndicator where
  period : ℤ
  num_std : ℚ
  _prices : List ℚ
  _current_value : Option BandValue

/-- The object state produced by a successful call of the Python
constructor of the multi-value indicator. -/
def MyCustomMultiValueIndicator.fresh (period : ℤ) (num_std : ℚ) :
    MyCustomMultiValueIndicator :=
  ⟨period, num_std, [], none⟩

/-- Constructor of MyCustomMultiValueIndicator (template.py lines 176-193):
validates period >= 2 and num_std > 0, raising ValueError otherwise. -/
def MyCustomMultiValueIndicator.init (period : ℤ) (num_std : ℚ) :
    Except String MyCustomMultiValueIndicator :=
  if period < 2 then .error "period must be >= 2"
  else if num_std ≤ 0 then .error "num_std must be > 0"
  else .ok (MyCustomMultiValueIndicator.fresh period num_std)

/-- Batch mode of the multi-value indicator (template.py lines 195-230).
The method assigns only to locals; the object state is untouched. -/
noncomputable def MyCustomMultiValueIndicator.calculate
    (ind : MyCustomMultiValueIndicator) (bars : List Bar) : List (Option BandValue) :=
  let prices := bars.map Bar.close
  (List.range prices.length).map fun (i : ℕ) =>
    if (i : ℤ) < ind.period - 1 then none
    else some (bandsOf ind.num_std (listSlice (i + 1 - ind.period.toNat) (i + 1) prices))

/-- State-passing embedding of the multi-value batch mode: no object field
is written by the Python method, so the state comes back unchanged. -/
noncomputable def MyCustomMultiValueIndicator.calculateS
    (ind : MyCustomMultiValueIndicator) (bars : List Bar) :
    MyCustomMultiValueIndicator × List (Option BandValue) :=
  (ind, ind.calculate bars)

/-- Incremental mode of the multi-value indicator (template.py
lines 232-261). -/
noncomputable def MyCustomMultiValueIndicator.update
    (ind : MyCustomMultiValueIndicator) (bar : Bar) :
    MyCustomMultiValueIndicator × Option BandValue :=
  let prices := ind._prices ++ [bar.close]
  if (prices.length : ℤ) < ind.period then
    (⟨ind.period, ind.num_std, prices, none⟩, none)
  else
    let v := bandsOf ind.num_std (lastN ind.period.toNat prices)
    (⟨ind.period, ind.num_std, prices, some v⟩, some v)

/-- Reset of the multi-value indicator (template.py lines 263-265). -/
def MyCustomMultiValueIndicator.reset (ind : MyCustomMultiValueIndicator) :
    MyCustomMultiValueIndicator :=
  ⟨ind.period, ind.num_std, [], none⟩

/-- Property value of the multi-value indicator (template.py lines 268-271). -/
def MyCustomMultiValueIndicator.value (ind : MyCustomMultiValueIndicator) :
    Option BandValue :=
  ind._current_value

/-- Property is_ready of the multi-value indicator (template.py
lines 273-276). -/
def MyCustomMultiValueIndicator.is_ready (ind : MyCustomMultiValueIndicator) : Prop :=
  (ind._prices.length : ℤ) ≥ ind.period

/-- Feed bars one at a time through the multi-value update. -/
noncomputable def MyCustomMultiValueIndicator.runUpdates
    (ind : MyCustomMultiValueIndicator) :
    List Bar → MyCustomMultiValueIndicator × List (Option BandValue)
  | [] => (ind, [])
  | b :: bs =>
    let s := ind.update b
    let r := s.1.runUpdates bs
    (r.1, s.2 :: r.2)

theorem MyCustomMultiValueIndicator.mv_runUpdates_eq_streamRun
    (ind : MyCustomMultiValueIndicator) (bs : List Bar) :
    (ind.runUpdates bs).2 =
      streamRun ind.period (bandsOf ind.num_std) ind._prices (bs.map Bar.close) := by
  induction bs generalizing ind with
  | nil => rfl
  | cons b bs ih =>
    show (ind.update b).2 :: ((ind.update b).1.runUpdates bs).2 = _
    rw [ih]
    by_cases h : ((ind._prices ++ [b.close]).length : ℤ) < ind.period
    · simp only [MyCustomMultiValueIndicator.update, if_pos h, List.map_cons, streamRun,
        streamStep]
    · simp only [MyCustomMultiValueIndicator.update, if_neg h, List.map_cons, streamRun,
        streamStep]

theorem MyCustomMultiValueIndicator.mv_calculate_length
    (ind : MyCustomMultiValueIndicator) (bars : List Bar) :
    (ind.calculate bars).length = bars.length := by
  unfold MyCustomMultiValueIndicator.calculate
  simp only [List.length_map, List.length_range]

theorem MyCustomMultiValueIndicator.mv_calculate_getElem?
    (ind : MyCustomMultiValueIndicator) (bars : List Bar) (i : ℕ) (hi : i < bars.length) :
    (ind.calculate bars)[i]? =
      some (if (i : ℤ) < ind.period - 1 then none
        else some (bandsOf ind.num_std
          (listSlice (i + 1 - ind.period.toNat) (i + 1) (bars.map Bar.close)))) := by
  unfold MyCustomMultiValueIndicator.calculate
  have hi2 : i < (bars.map Bar.close).length := by simpa using hi
  rw [List.getElem?_map, List.getElem?_range (by simpa using hi2)]
  rfl

/-!  Shared signal and fill vocabulary (qtrader SignalIntention values and
fill sides used by the example strategies). -/

/-- Trading intentions emitted by the example strategies. -/
inductive SignalIntention where
  | OPEN_LONG
  | CLOSE_LONG
deriving DecidableEq

/-- Side of a fill confirmation: the strings "buy" and "sell". -/
inductive FillSide where
  | buy
  | sell
deriving DecidableEq

/-- Fill confirmation as read by on_position_filled: only side (and, for
the quantity-irrelevance questions, the filled quantity) matter; the
strategies read no other field. -/
structure FillEvent where
  side : FillSide
  filled_quantity : ℚ
deriving DecidableEq

/-- Position direction tracked by SMACrossover: the strings "long" and
"short"; the Python None (flat) is the Option none. -/
inductive PosDir where
  | long
  | short
deriving DecidableEq

/-!  SMACrossover (sma_crossover.py). -/

/-- Configuration fields of SMAConfig read by on_bar. -/
structure SMAConfig where
  fast_period : ℤ
  slow_period : ℤ
deriving DecidableEq

/-- Initial per-symbol position of SMACrossover:
self._positions.get(symbol, None) on the empty dict is None (flat). -/
def SMACrossover.initialPosition : Option PosDir := none

/-- Per-symbol body of SMACrossover.on_position_filled (sma_crossover.py
lines 98-114), given the current position looked up for the symbol of the
event: a buy closes a short else opens a long; a sell closes a long else
opens a short. Only event.side is read; the quantity is ignored. -/
def SMACrossover.on_position_filled (event : FillEvent) (current : Option PosDir) :
    Option PosDir :=
  match event.side with
  | .buy => if current = some .short then none else some .long
  | .sell => if current = some .long then none else some .short

/-- Crossover classification used by on_bar (sma_crossover.py
lines 161-163 with the if/elif dispatch of lines 197 and 218):
golden when prev_fast_sma <= prev_slow_sma and fast_sma > slow_sma,
death when prev_fast_sma >= prev_slow_sma and fast_sma < slow_sma. -/
inductive CrossEvent where
  | golden
  | death
  | nothing
deriving DecidableEq

/-- Classify one crossover step from the previous and current fast/slow
values, with the same branch order as the source. -/
def classifyCross (prev_fast_sma prev_slow_sma fast_sma slow_sma : ℚ) : CrossEvent :=
  if prev_fast_sma ≤ prev_slow_sma ∧ fast_sma > slow_sma then .golden
  else if prev_fast_sma ≥ prev_slow_sma ∧ fast_sma < slow_sma then .death
  else .nothing

/-- Bars fetched by on_bar (sma_crossover.py line 130): the last
slow_period + 1 bars of the history up to and including the current bar;
the source comments document that the current bar is the last element. -/
def SMACrossover.barsFor (cfg : SMAConfig) (history : List ℚ) : List ℚ :=
  lastN (cfg.slow_period + 1).toNat history

/-- The bars used for the current SMAs: bars[:-1], excluding the current
bar (sma_crossover.py line 138). -/
def SMACrossover.currentBars (bars : List ℚ) : List ℚ := bars.dropLast

/-- The bars used for the previous SMAs: bars[:-2], excluding the current
and previous bars (sma_crossover.py line 151). -/
def SMACrossover.prevBars (bars : List ℚ) : List ℚ := bars.dropLast.dropLast

/-- Current fast SMA (sma_crossover.py lines 141-144). -/
def SMACrossover.fastSMA (cfg : SMAConfig) (bars : List ℚ) : ℚ :=
  mean (lastN cfg.fast_period.toNat (SMACrossover.currentBars bars))

/-- Current slow SMA (sma_crossover.py lines 147-148): the mean of all of
current_bars. -/
def SMACrossover.slowSMA (bars : List ℚ) : ℚ :=
  mean (SMACrossover.currentBars bars)

/-- Previous fast SMA (sma_crossover.py lines 154-155). -/
def SMACrossover.prevFastSMA (cfg : SMAConfig) (bars : List ℚ) : ℚ :=
  mean (lastN cfg.fast_period.toNat (SMACrossover.prevBars bars))

/-- Previous slow SMA (sma_crossover.py lines 158-159): the mean of all of
prev_bars. -/
def SMACrossover.prevSlowSMA (bars : List ℚ) : ℚ :=
  mean (SMACrossover.prevBars bars)

/-- The golden_cross boolean of on_bar at a given bar, as a function of the
close history up to and including that bar; false when fewer than
slow_period + 1 bars are available (on_bar returns before the check). -/
def SMACrossover.goldenAt (cfg : SMAConfig) (history : List ℚ) : Bool :=
  let bars := SMACrossover.barsFor cfg history
  if (bars.length : ℤ) < cfg.slow_period + 1 then false
  else decide (SMACrossover.prevFastSMA cfg bars ≤ SMACrossover.prevSlowSMA bars ∧
    SMACrossover.fastSMA cfg bars > SMACrossover.slowSMA bars)

/-- SMACrossover.on_bar (sma_crossover.py lines 116-238) for one symbol:
history is the close history up to and including the current bar, price
models context.get_price, pos the tracked position for the symbol. Returns
the emitted intention, if any (the position mutates only through fills). -/
def SMACrossover.on_bar (cfg : SMAConfig) (pos : Option PosDir)
    (history : List ℚ) (price : Option ℚ) : Option SignalIntention :=
  let bars := SMACrossover.barsFor cfg history
  if (bars.length : ℤ) < cfg.slow_period + 1 then none
  else
    let fast_sma := SMACrossover.fastSMA cfg bars
    let slow_sma := SMACrossover.slowSMA bars
    let prev_fast_sma := SMACrossover.prevFastSMA cfg bars
    let prev_slow_sma := SMACrossover.prevSlowSMA bars
    let golden_cross := prev_fast_sma ≤ prev_slow_sma ∧ fast_sma > slow_sma
    let death_cross := prev_fast_sma ≥ prev_slow_sma ∧ fast_sma < slow_sma
    match price with
    | none => none
    | some _ =>
      if golden_cross then
        if pos ≠ some .long then some .OPEN_LONG else none
      else if death_cross then
        if pos = some .long then some .CLOSE_LONG else none
      else none

/-- Drive SMACrossover over a close sequence for one symbol: each bar is
appended to the history, on_bar runs with the current close as the
available price, and an emitted intention is confirmed by a corresponding
fill (buy for OPEN_LONG, sell for CLOSE_LONG) before the next bar. -/
def SMACrossover.run (cfg : SMAConfig) (pos : Option PosDir) (history : List ℚ) :
    List ℚ → List (Option SignalIntention)
  | [] => []
  | c :: cs =>
    let history2 := history ++ [c]
    let sig := SMACrossover.on_bar cfg pos history2 (some c)
    let pos2 := match sig with
      | some .OPEN_LONG => SMACrossover.on_position_filled ⟨.buy, 1⟩ pos
      | some .CLOSE_LONG => SMACrossover.on_position_filled ⟨.sell, 1⟩ pos
      | none => pos
    sig :: SMACrossover.run cfg pos2 history2 cs

/-- Modelled from the spec: the n-bar trailing mean of the closes strictly
before the decision bar at index t (end-to-end scenario B wording:
the 2-bar trailing mean ... using only bars strictly before the decision
bar). -/
def specTrailingMean (n : ℕ) (closes : List ℚ) (t : ℕ) : ℚ :=
  mean (lastN n (closes.take t))

/-- Modelled from the spec: at decision bar t the fast trailing mean
strictly exceeds the slow trailing mean, both windows full (fast 2 bars,
slow 3 bars, strictly prior closes only). -/
def specFastExceedsSlow (closes : List ℚ) (t : ℕ) : Prop :=
  3 ≤ t ∧ specTrailingMean 2 closes t > specTrailingMean 3 closes t

instance (closes : List ℚ) (t : ℕ) : Decidable (specFastExceedsSlow closes t) := by
  unfold specFastExceedsSlow; infer_instance

/-- Modelled from the spec: t is the first decision bar at which the 2-bar
trailing mean exceeds the 3-bar trailing mean. -/
def specFirstExceed (closes : List ℚ) (t : ℕ) : Prop :=
  specFastExceedsSlow closes t ∧ ∀ u < t, ¬ specFastExceedsSlow closes u

instance (closes : List ℚ) (t : ℕ) : Decidable (specFirstExceed closes t) := by
  unfold specFirstExceed; infer_instance

/-!  BuyAndHoldStrategy (buy_and_hold.py). -/

/-- State of BuyAndHoldStrategy: the bought flag set in the constructor
(buy_and_hold.py line 59). -/
structure BuyAndHoldStrategy where
  _bought : Bool
deriving DecidableEq

/-- The state after the Python constructor: not yet bought. -/
def BuyAndHoldStrategy.fresh : BuyAndHoldStrategy := ⟨false⟩

/-- BuyAndHoldStrategy.on_bar (buy_and_hold.py lines 61-85): skip when
already bought, otherwise emit OPEN_LONG and mark as bought. -/
def BuyAndHoldStrategy.on_bar (s : BuyAndHoldStrategy) (_bar : Bar) :
    BuyAndHoldStrategy × Option SignalIntention :=
  if s._bought then (s, none)
  else (⟨true⟩, some .OPEN_LONG)

/-- An input to a strategy run: either a price bar or a fill confirmation
delivered between bars. -/
inductive StratEvent where
  | bar (b : Bar)
  | fill (e : FillEvent)
deriving DecidableEq

/-- Whether a run event is a price bar. -/
def StratEvent.isBar : StratEvent → Bool
  | .bar _ => true
  | .fill _ => false

/-- Drive BuyAndHoldStrategy over a mixed sequence of bars and fills. The
class defines no fill handler and its only state is the bought flag, so a
fill leaves the state unchanged and emits nothing; output entries align
with input events. -/
def BuyAndHoldStrategy.runEvents (s : BuyAndHoldStrategy) :
    List StratEvent → BuyAndHoldStrategy × List (Option SignalIntention)
  | [] => (s, [])
  | .bar b :: es =>
    let r := s.on_bar b
    let rest := r.1.runEvents es
    (rest.1, r.2 :: rest.2)
  | .fill _ :: es =>
    let rest := s.runEvents es
    (rest.1, none :: rest.2)

/-!  WeeklyMondayFriday (weekly_monday_friday.py). -/

/-- A bar as seen by WeeklyMondayFriday.on_bar: symbol, the weekday derived
from the ISO timestamp (0 = Monday .. 6 = Sunday), the ISO year-week key
derived by _get_week_key, and the current price that context.get_price
returns at this bar (derivations from the datetime are modelled as given
attributes). -/
structure WBar where
  symbol : String
  weekday : ℕ
  week_key : String
  price : Option ℚ

/-- State of WeeklyMondayFriday: the per-symbol position dict
(get with default False) and the per-symbol last traded week dict
(get with default None), modelled as total lookup functions. -/
structure WeeklyState where
  _positions : String → Bool
  _traded_this_week : String → Option String

/-- The state after the Python constructor: both dicts empty. -/
def WeeklyState.fresh : WeeklyState := ⟨fun _ => false, fun _ => none⟩

/-- WeeklyMondayFriday.on_position_filled (weekly_monday_friday.py
lines 92-106): a buy records a position for the symbol, a sell clears it. -/
def WeeklyState.on_position_filled (st : WeeklyState) (symbol : String)
    (side : FillSide) : WeeklyState :=
  match side with
  | .buy => ⟨fun s => if s = symbol then true else st._positions s, st._traded_this_week⟩
  | .sell => ⟨fun s => if s = symbol then false else st._positions s, st._traded_this_week⟩

/-- WeeklyMondayFriday.on_bar (weekly_monday_friday.py lines 121-195):
no-op without a price; on Monday emit OPEN_LONG and mark the week traded
when flat and not yet traded this week; on Friday emit CLOSE_LONG when
positioned; otherwise do nothing. -/
def WeeklyState.on_bar (st : WeeklyState) (b : WBar) :
    WeeklyState × Option SignalIntention :=
  let has_position := st._positions b.symbol
  let week_key := b.week_key
  let last_trade_week := st._traded_this_week b.symbol
  match b.price with
  | none => (st, none)
  | some _ =>
    if b.weekday = 0 then
      if has_position = false ∧ last_trade_week ≠ some week_key then
        (⟨st._positions,
          fun s => if s = b.symbol then some week_key else st._traded_this_week s⟩,
          some .OPEN_LONG)
      else (st, none)
    else if b.weekday = 4 then
      if has_position then (st, some .CLOSE_LONG) else (st, none)
    else (st, none)

/-- Drive WeeklyMondayFriday over a bar sequence, confirming each emitted
intention by the corresponding fill (buy for OPEN_LONG, sell for
CLOSE_LONG) before the next bar. -/
def WeeklyState.run (st : WeeklyState) : List WBar → List (Option SignalIntention)
  | [] => []
  | b :: bs =>
    let r := st.on_bar b
    let st2 := match r.2 with
      | some .OPEN_LONG => r.1.on_position_filled b.symbol .buy
      | some .CLOSE_LONG => r.1.on_position_filled b.symbol .sell
      | none => r.1
    r.2 :: st2.run bs

/-!  Claim theorems. -/

/-- C3: for all previous and current fast/slow values, the step is
classified golden iff prev_fast <= prev_slow and fast > slow, death iff
prev_fast >= prev_slow and fast < slow, and otherwise no event; exact
equality at the previous step does not prevent a cross at the current
step. -/
theorem claim_C3 (pf ps f s : ℚ) :
    (classifyCross pf ps f s = .golden ↔ (pf ≤ ps ∧ f > s)) ∧
    (classifyCross pf ps f s = .death ↔ (pf ≥ ps ∧ f < s)) ∧
    (classifyCross pf ps f s = .nothing ↔ (¬(pf ≤ ps ∧ f > s) ∧ ¬(pf ≥ ps ∧ f < s))) ∧
    (classifyCross pf pf f s = .golden ↔ f > s) ∧
    (classifyCross pf pf f s = .death ↔ f < s) := by
  unfold classifyCross
  refine ⟨?_, ?_, ?_, ?_, ?_⟩ <;> split_ifs with h1 h2 <;> simp_all <;>
    intros <;> linarith

/-- C4: from Flat, position state is mutated only by fills: a buy while
short yields flat and otherwise yields long, a sell while long yields flat
and otherwise yields short, the fill quantity never matters, and the fill
sequences buy-buy-sell and sell-buy starting flat both end flat. -/
theorem claim_C4 :
    SMACrossover.initialPosition = none ∧
    (∀ q : ℚ, SMACrossover.on_position_filled ⟨.buy, q⟩ (some .short) = none) ∧
    (∀ q : ℚ, SMACrossover.on_position_filled ⟨.buy, q⟩ none = some .long) ∧
    (∀ q : ℚ, SMACrossover.on_position_filled ⟨.buy, q⟩ (some .long) = some .long) ∧
    (∀ q : ℚ, SMACrossover.on_position_filled ⟨.sell, q⟩ (some .long) = none) ∧
    (∀ q : ℚ, SMACrossover.on_position_filled ⟨.sell, q⟩ none = some .short) ∧
    (∀ q : ℚ, SMACrossover.on_position_filled ⟨.sell, q⟩ (some .short) = some .short) ∧
    (∀ (side : FillSide) (q r : ℚ) (pos : Option PosDir),
      SMACrossover.on_position_filled ⟨side, q⟩ pos =
        SMACrossover.on_position_filled ⟨side, r⟩ pos) ∧
    List.foldl (fun pos e => SMACrossover.on_position_filled e pos)
      SMACrossover.initialPosition
      [⟨.buy, 1⟩, ⟨.buy, 2⟩, ⟨.sell, 3⟩] = none ∧
    List.foldl (fun pos e => SMACrossover.on_position_filled e pos)
      SMACrossover.initialPosition [⟨.sell, 1⟩, ⟨.buy, 2⟩] = none := by
  refine ⟨rfl, fun q => rfl, fun q => rfl, fun q => rfl, fun q => rfl, fun q => rfl,
    fun q => rfl, ?_, rfl, rfl⟩
  intro side q r pos
  cases side <;> rfl

/-- C9: constructing the single-value indicator with a non-positive period
or a non-positive multiplier, or the multi-value indicator with period
below 2 or non-positive num_std, fails at construction with a
configuration error; every valid configuration constructs successfully. -/
theorem claim_C9 (p q : ℤ) (m ns : ℚ) :
    ((∃ ind, MyCustomIndicator.init p m = .ok ind) ↔ (1 ≤ p ∧ 0 < m)) ∧
    ((∃ ind, MyCustomMultiValueIndicator.init q ns = .ok ind) ↔ (2 ≤ q ∧ 0 < ns)) ∧
    (¬(1 ≤ p ∧ 0 < m) → ∃ e, MyCustomIndicator.init p m = .error e) ∧
    (¬(2 ≤ q ∧ 0 < ns) → ∃ e, MyCustomMultiValueIndicator.init q ns = .error e) := by
  unfold MyCustomIndicator.init MyCustomMultiValueIndicator.init
  refine ⟨?_, ?_, ?_, ?_⟩ <;> split_ifs with h1 h2 <;> simp_all

/-- C9 witness: a concrete invalid configuration raising an error and the
theorem applied there. -/
theorem claim_C9_witness :
    ¬((1:ℤ) ≤ 0 ∧ (0:ℚ) < 1) ∧ (∃ e, MyCustomIndicator.init 0 1 = .error e) ∧
    (∃ e, MyCustomMultiValueIndicator.init 1 1 = .error e) := by
  refine ⟨by norm_num, (claim_C9 0 1 1 1).2.2.1 (by norm_num), ?_⟩
  exact (claim_C9 0 1 1 1).2.2.2 (by norm_num)

/-- C10: the batch mode mutates nothing: the object state, the cached
value, readiness and the behaviour of any later updates are identical
before and after a calculate call, for both indicator classes. -/
theorem claim_C10 (ind : MyCustomIndicator) (mind : MyCustomMultiValueIndicator)
    (bars after : List Bar) :
    (ind.calculateS bars).1 = ind ∧
    (ind.calculateS bars).1._prices = ind._prices ∧
    (ind.calculateS bars).1.value = ind.value ∧
    ((ind.calculateS bars).1.is_ready ↔ ind.is_ready) ∧
    (ind.calculateS bars).1.runUpdates after = ind.runUpdates after ∧
    (ind.calculateS bars).2 = ind.calculate bars ∧
    (mind.calculateS bars).1 = mind ∧
    (mind.calculateS bars).1._prices = mind._prices ∧
    (mind.calculateS bars).1.value = mind.value ∧
    ((mind.calculateS bars).1.is_ready ↔ mind.is_ready) ∧
    (mind.calculateS bars).1.runUpdates after = mind.runUpdates after ∧
    (mind.calculateS bars).2 = mind.calculate bars :=
  ⟨rfl, rfl, rfl, Iff.rfl, rfl, rfl, rfl, rfl, rfl, Iff.rfl, rfl, rfl⟩

/-- One batch-mode entry coincides with the incremental step on the price
prefix of the same length, for any per-window computation. -/
theorem batch_step_eq_streamStep (p : ℤ) (f : List ℚ → α) (cs : List ℚ) (i : ℕ)
    (hi : i < cs.length) :
    (if (i : ℤ) < p - 1 then none else some (f (listSlice (i + 1 - p.toNat) (i + 1) cs)))
      = streamStep p f (cs.take (i + 1)) := by
  unfold streamStep
  rw [take_length_of_lt cs i hi]
  have hcond : (((i + 1 : ℕ) : ℤ) < p) ↔ ((i : ℤ) < p - 1) := by push_cast; omega
  by_cases h : (i : ℤ) < p - 1
  · rw [if_pos h, if_pos (hcond.mpr h)]
  · rw [if_neg h, if_neg (fun hc => h (hcond.mp hc)), listSlice_eq_lastN_take p.toNat cs i hi]

/-- Batch and incremental modes of MyCustomIndicator agree element-wise on
every input sequence. -/
theorem MyCustomIndicator.batch_eq_incremental (p : ℤ) (m : ℚ) (bars : List Bar) :
    ((MyCustomIndicator.fresh p m).runUpdates bars).2 =
      (MyCustomIndicator.fresh p m).calculate bars := by
  apply List.ext_getElem?
  intro i
  by_cases hi : i < bars.length
  · have hi2 : i < (bars.map Bar.close).length := by simpa using hi
    rw [MyCustomIndicator.runUpdates_eq_streamRun, MyCustomIndicator.calculate_getElem? _ _ _ hi]
    simp only [MyCustomIndicator.fresh]
    rw [streamRun_getElem? _ _ _ _ _ hi2]
    simp only [List.nil_append]
    exact congrArg some (batch_step_eq_streamStep p _ _ i hi2).symm
  · have h1 : ((MyCustomIndicator.fresh p m).runUpdates bars).2.length ≤ i := by
      rw [MyCustomIndicator.runUpdates_eq_streamRun, streamRun_length]
      simp only [List.length_map]
      omega
    have h2 : ((MyCustomIndicator.fresh p m).calculate bars).length ≤ i := by
      rw [MyCustomIndicator.calculate_length]
      omega
    rw [List.getElem?_eq_none h1, List.getElem?_eq_none h2]

/-- Batch and incremental modes of MyCustomMultiValueIndicator agree
element-wise on every input sequence. -/
theorem MyCustomMultiValueIndicator.mv_batch_eq_incremental (q : ℤ) (ns : ℚ)
    (bars : List Bar) :
    ((MyCustomMultiValueIndicator.fresh q ns).runUpdates bars).2 =
      (MyCustomMultiValueIndicator.fresh q ns).calculate bars := by
  apply List.ext_getElem?
  intro i
  by_cases hi : i < bars.length
  · have hi2 : i < (bars.map Bar.close).length := by simpa using hi
    rw [MyCustomMultiValueIndicator.mv_runUpdates_eq_streamRun,
      MyCustomMultiValueIndicator.mv_calculate_getElem? _ _ _ hi]
    simp only [MyCustomMultiValueIndicator.fresh]
    rw [streamRun_getElem? _ _ _ _ _ hi2]
    simp only [List.nil_append]
    exact congrArg some (batch_step_eq_streamStep q _ _ i hi2).symm
  · have h1 : ((MyCustomMultiValueIndicator.fresh q ns).runUpdates bars).2.length ≤ i := by
      rw [MyCustomMultiValueIndicator.mv_runUpdates_eq_streamRun, streamRun_length]
      simp only [List.length_map]
      omega
    have h2 : ((MyCustomMultiValueIndicator.fresh q ns).calculate bars).length ≤ i := by
      rw [MyCustomMultiValueIndicator.mv_calculate_length]
      omega
    rw [List.getElem?_eq_none h1, List.getElem?_eq_none h2]

/-- C1: for every period (at least 1 for the single-value indicator, at
least 2 for the banded one) and every bar sequence, the batch result
equals the sequence of incremental update results on a fresh instance of
the same configuration, both modes are not ready exactly at indices
i < period - 1, and at every later index both yield the value computed
from the trailing period closes. -/
theorem claim_C1 (p q : ℤ) (m ns : ℚ) (bars : List Bar) (_hp : 1 ≤ p) (_hq : 2 ≤ q) :
    (((MyCustomIndicator.fresh p m).runUpdates bars).2 =
      (MyCustomIndicator.fresh p m).calculate bars) ∧
    (∀ i, i < bars.length →
      (((MyCustomIndicator.fresh p m).calculate bars)[i]? = some none ↔ (i : ℤ) < p - 1)) ∧
    (∀ i, i < bars.length → p - 1 ≤ (i : ℤ) →
      ((MyCustomIndicator.fresh p m).calculate bars)[i]? =
        some (some (mean (lastN p.toNat ((bars.map Bar.close).take (i + 1))) * m))) ∧
    (((MyCustomMultiValueIndicator.fresh q ns).runUpdates bars).2 =
      (MyCustomMultiValueIndicator.fresh q ns).calculate bars) ∧
    (∀ i, i < bars.length →
      (((MyCustomMultiValueIndicator.fresh q ns).calculate bars)[i]? = some none ↔
        (i : ℤ) < q - 1)) ∧
    (∀ i, i < bars.length → q - 1 ≤ (i : ℤ) →
      ((MyCustomMultiValueIndicator.fresh q ns).calculate bars)[i]? =
        some (some (bandsOf ns (lastN q.toNat ((bars.map Bar.close).take (i + 1)))))) := by
  refine ⟨MyCustomIndicator.batch_eq_incremental p m bars, ?_, ?_,
    MyCustomMultiValueIndicator.mv_batch_eq_incremental q ns bars, ?_, ?_⟩
  · intro i hi
    rw [MyCustomIndicator.calculate_getElem? _ _ _ hi]
    by_cases h : (i : ℤ) < p - 1
    · simp [MyCustomIndicator.fresh, h]
    · simp [MyCustomIndicator.fresh, h]
  · intro i hi hge
    have hi2 : i < (bars.map Bar.close).length := by simpa using hi
    rw [MyCustomIndicator.calculate_getElem? _ _ _ hi]
    rw [if_neg (by simp only [MyCustomIndicator.fresh]; omega)]
    simp only [MyCustomIndicator.fresh]
    rw [listSlice_eq_lastN_take _ _ _ hi2]
  · intro i hi
    rw [MyCustomMultiValueIndicator.mv_calculate_getElem? _ _ _ hi]
    by_cases h : (i : ℤ) < q - 1
    · simp [MyCustomMultiValueIndicator.fresh, h]
    · simp [MyCustomMultiValueIndicator.fresh, h]
  · intro i hi hge
    have hi2 : i < (bars.map Bar.close).length := by simpa using hi
    rw [MyCustomMultiValueIndicator.mv_calculate_getElem? _ _ _ hi]
    rw [if_neg (by simp only [MyCustomMultiValueIndicator.fresh]; omega)]
    simp only [MyCustomMultiValueIndicator.fresh]
    rw [listSlice_eq_lastN_take _ _ _ hi2]

/-- C1 witness: the theorem applied at period 1 (single) and 2 (multi)
with multiplier and num_std 1 on a concrete two-bar sequence. -/
theorem claim_C1_witness :
    (1:ℤ) ≤ 1 ∧ (2:ℤ) ≤ 2 ∧
    ((MyCustomIndicator.fresh 1 1).runUpdates [⟨3⟩, ⟨5⟩]).2 =
      (MyCustomIndicator.fresh 1 1).calculate [⟨3⟩, ⟨5⟩] ∧
    ((MyCustomMultiValueIndicator.fresh 2 1).runUpdates [⟨3⟩, ⟨5⟩]).2 =
      (MyCustomMultiValueIndicator.fresh 2 1).calculate [⟨3⟩, ⟨5⟩] :=
  ⟨le_refl 1, by norm_num,
    (claim_C1 1 2 1 1 [⟨3⟩, ⟨5⟩] (by norm_num) (by norm_num)).1,
    (claim_C1 1 2 1 1 [⟨3⟩, ⟨5⟩] (by norm_num) (by norm_num)).2.2.2.1⟩

/-- C6: reset clears the stored window and cached value while leaving the
configured parameters unchanged, and feeding any bar sequence after reset
returns exactly the update sequence of a fresh instance with the same
configuration, for both indicator classes. -/
theorem claim_C6 (p q : ℤ) (m ns : ℚ) (ps qs : List ℚ) (cv : Option ℚ)
    (cw : Option BandValue) (bars : List Bar) (hp : 1 ≤ p) (hm : 0 < m)
    (hq : 2 ≤ q) (hns : 0 < ns) :
    (MyCustomIndicator.reset ⟨p, m, ps, cv⟩)._prices = [] ∧
    (MyCustomIndicator.reset ⟨p, m, ps, cv⟩)._current_value = none ∧
    (MyCustomIndicator.reset ⟨p, m, ps, cv⟩).period = p ∧
    (MyCustomIndicator.reset ⟨p, m, ps, cv⟩).multiplier = m ∧
    MyCustomIndicator.init p m = .ok (MyCustomIndicator.fresh p m) ∧
    (MyCustomIndicator.reset ⟨p, m, ps, cv⟩).runUpdates bars =
      (MyCustomIndicator.fresh p m).runUpdates bars ∧
    (MyCustomMultiValueIndicator.reset ⟨q, ns, qs, cw⟩)._prices = [] ∧
    (MyCustomMultiValueIndicator.reset ⟨q, ns, qs, cw⟩)._current_value = none ∧
    (MyCustomMultiValueIndicator.reset ⟨q, ns, qs, cw⟩).period = q ∧
    (MyCustomMultiValueIndicator.reset ⟨q, ns, qs, cw⟩).num_std = ns ∧
    MyCustomMultiValueIndicator.init q ns = .ok (MyCustomMultiValueIndicator.fresh q ns) ∧
    (MyCustomMultiValueIndicator.reset ⟨q, ns, qs, cw⟩).runUpdates bars =
      (MyCustomMultiValueIndicator.fresh q ns).runUpdates bars := by
  refine ⟨rfl, rfl, rfl, rfl, ?_, rfl, rfl, rfl, rfl, rfl, ?_, rfl⟩
  · unfold MyCustomIndicator.init
    rw [if_neg (by omega), if_neg (not_le.mpr hm)]
  · unfold MyCustomMultiValueIndicator.init
    rw [if_neg (by omega), if_neg (not_le.mpr hns)]

/-- C6 witness: the theorem applied to a concretely dirtied state with a
valid configuration. -/
theorem claim_C6_witness :
    (1:ℤ) ≤ 2 ∧ (0:ℚ) < 1 ∧
    (MyCustomIndicator.reset ⟨2, 1, [7], some 7⟩).runUpdates [⟨3⟩] =
      (MyCustomIndicator.fresh 2 1).runUpdates [⟨3⟩] ∧
    (MyCustomMultiValueIndicator.reset ⟨2, 1, [7], none⟩).runUpdates [⟨3⟩] =
      (MyCustomMultiValueIndicator.fresh 2 1).runUpdates [⟨3⟩] := by
  refine ⟨by norm_num, by norm_num, ?_, ?_⟩
  · exact (claim_C6 2 2 1 1 [7] [7] (some 7) none [⟨3⟩] (by norm_num) (by norm_num)
      (by norm_num) (by norm_num)).2.2.2.2.2.1
  · exact (claim_C6 2 2 1 1 [7] [7] (some 7) none [⟨3⟩] (by norm_num) (by norm_num)
      (by norm_num) (by norm_num)).2.2.2.2.2.2.2.2.2.2.2

/-- C2 evaluation: with fast_period 2, slow_period 3 and the minimal
history [1, 2, 3, 4] (decision bar t = 3), the window the code uses for
the previous slow SMA is bars[:-2] of the slow_period + 1 fetched bars:
it is [1, 2], holding slow_period - 1 = 2 bars (closes t-3 and t-2) with
mean 3/2, not a window of slow_period = 3 bars ending at t-2 as the claim
requires; the current windows, by contrast, are the full-size [1, 2, 3]
(slow) and [2, 3] (fast), both ending at t-1. -/
theorem claim_C2_eval :
    SMACrossover.prevBars (SMACrossover.barsFor ⟨2, 3⟩ [1, 2, 3, 4]) = [1, 2] ∧
    (SMACrossover.prevBars (SMACrossover.barsFor ⟨2, 3⟩ [1, 2, 3, 4])).length = 2 ∧
    (⟨2, 3⟩ : SMAConfig).slow_period = 3 ∧
    SMACrossover.prevSlowSMA (SMACrossover.barsFor ⟨2, 3⟩ [1, 2, 3, 4]) = 3 / 2 ∧
    SMACrossover.currentBars (SMACrossover.barsFor ⟨2, 3⟩ [1, 2, 3, 4]) = [1, 2, 3] ∧
    lastN (2 : ℤ).toNat
      (SMACrossover.currentBars (SMACrossover.barsFor ⟨2, 3⟩ [1, 2, 3, 4])) = [2, 3] := by
  refine ⟨?_, by decide, rfl, ?_, ?_, ?_⟩
  · norm_num [SMACrossover.prevBars, SMACrossover.barsFor, lastN]
  · norm_num [SMACrossover.prevBars, SMACrossover.barsFor, SMACrossover.prevSlowSMA,
      lastN, mean]
  · norm_num [SMACrossover.currentBars, SMACrossover.barsFor, lastN]
  · simp [SMACrossover.currentBars, SMACrossover.barsFor, lastN]

/-- C8: with a price available, the calendar strategy emits an open-long
on a Monday bar exactly when flat and not yet acted in that ISO week, and
then marks the week acted; on a Friday bar it emits a close-long exactly
when positioned; on any other weekday it does nothing regardless of state;
and the Monday-to-Friday week scenario starting flat yields exactly
open-long Monday, close-long Friday and nothing in between. -/
theorem claim_C8 :
    (∀ (st : WeeklyState) (b : WBar) (pr : ℚ), b.price = some pr → b.weekday = 0 →
      (((st.on_bar b).2 = some .OPEN_LONG) ↔
        (st._positions b.symbol = false ∧ st._traded_this_week b.symbol ≠ some b.week_key)) ∧
      ((st.on_bar b).2 = some .OPEN_LONG →
        (st.on_bar b).1._traded_this_week b.symbol = some b.week_key) ∧
      ((st.on_bar b).2 = some .OPEN_LONG ∨ (st.on_bar b).2 = none)) ∧
    (∀ (st : WeeklyState) (b : WBar) (pr : ℚ), b.price = some pr → b.weekday = 4 →
      (st.on_bar b).2 = (if st._positions b.symbol then some .CLOSE_LONG else none) ∧
      (st.on_bar b).1 = st) ∧
    (∀ (st : WeeklyState) (b : WBar) (pr : ℚ), b.price = some pr →
      b.weekday ≠ 0 → b.weekday ≠ 4 → st.on_bar b = (st, none)) ∧
    (∀ (st : WeeklyState) (b : WBar), b.price = none → st.on_bar b = (st, none)) ∧
    WeeklyState.fresh.run
      [⟨"SPY", 0, "2024-W45", some 1⟩, ⟨"SPY", 1, "2024-W45", some 1⟩,
       ⟨"SPY", 2, "2024-W45", some 1⟩, ⟨"SPY", 3, "2024-W45", some 1⟩,
       ⟨"SPY", 4, "2024-W45", some 1⟩] =
      [some .OPEN_LONG, none, none, none, some .CLOSE_LONG] := by
  refine ⟨?_, ?_, ?_, ?_, by decide⟩
  · intro st b pr hpr h0
    by_cases hc : st._positions b.symbol = false ∧
        st._traded_this_week b.symbol ≠ some b.week_key
    · simp [WeeklyState.on_bar, hpr, h0, hc]
    · simp [WeeklyState.on_bar, hpr, h0, hc]
  · intro st b pr hpr h4
    have h0 : b.weekday ≠ 0 := by omega
    by_cases hc : st._positions b.symbol
    · simp [WeeklyState.on_bar, hpr, h4, h0, hc]
    · simp [WeeklyState.on_bar, hpr, h4, h0, hc]
  · intro st b pr hpr h0 h4
    simp [WeeklyState.on_bar, hpr, h0, h4]
  · intro st b hpr
    simp [WeeklyState.on_bar, hpr]

/-- C8 witness: the theorem applied on concrete Monday and Friday bars
with the hypotheses discharged. -/
theorem claim_C8_witness :
    ((WeeklyState.fresh.on_bar ⟨"SPY", 0, "2024-W45", some 1⟩).2 = some .OPEN_LONG ↔
      (WeeklyState.fresh._positions "SPY" = false ∧
        WeeklyState.fresh._traded_this_week "SPY" ≠ some "2024-W45")) ∧
    (WeeklyState.fresh.on_bar ⟨"SPY", 2, "2024-W45", some 1⟩ = (WeeklyState.fresh, none)) := by
  refine ⟨((claim_C8.1 WeeklyState.fresh ⟨"SPY", 0, "2024-W45", some 1⟩ 1 rfl rfl)).1, ?_⟩
  exact claim_C8.2.2.1 WeeklyState.fresh ⟨"SPY", 2, "2024-W45", some 1⟩ 1 rfl
    (by norm_num) (by norm_num)

/-- Once bought, BuyAndHoldStrategy emits nothing on any further event. -/
theorem BuyAndHoldStrategy.bought_all_none (es : List StratEvent) :
    ((⟨true⟩ : BuyAndHoldStrategy).runEvents es).2 = es.map fun _ => none := by
  induction es with
  | nil => rfl
  | cons e es ih =>
    cases e <;> simp [BuyAndHoldStrategy.runEvents, BuyAndHoldStrategy.on_bar, ih]

/-- C7: over any finite run of bars and interleaved fills, the single-shot
policy emits exactly one open-long intention when at least one bar occurs
and none otherwise, and an open-long is emitted at an event exactly when
that event is the first bar of the run. -/
theorem claim_C7 (events : List StratEvent) :
    ((BuyAndHoldStrategy.fresh.runEvents events).2.filterMap id =
      if events.any StratEvent.isBar then [SignalIntention.OPEN_LONG] else []) ∧
    (∀ i, i < events.length →
      (((BuyAndHoldStrategy.fresh.runEvents events).2)[i]? = some (some .OPEN_LONG) ↔
        ((∃ b, events[i]? = some (.bar b)) ∧
          ∀ e ∈ events.take i, e.isBar = false))) := by
  induction events with
  | nil => exact ⟨rfl, fun i hi => absurd hi (by simp)⟩
  | cons e es ih =>
    cases e with
    | fill f =>
      have hrun : (BuyAndHoldStrategy.fresh.runEvents (.fill f :: es)).2 =
          none :: (BuyAndHoldStrategy.fresh.runEvents es).2 := rfl
      constructor
      · rw [hrun]
        simpa [StratEvent.isBar] using ih.1
      · intro i hi
        rw [hrun]
        cases i with
        | zero => simp [StratEvent.isBar]
        | succ i =>
          have hi2 : i < es.length := by simpa using hi
          simpa [StratEvent.isBar] using ih.2 i hi2
    | bar b =>
      have hrun : (BuyAndHoldStrategy.fresh.runEvents (.bar b :: es)).2 =
          some .OPEN_LONG :: ((⟨true⟩ : BuyAndHoldStrategy).runEvents es).2 := rfl
      constructor
      · rw [hrun, BuyAndHoldStrategy.bought_all_none]
        simp [StratEvent.isBar, List.filterMap_eq_nil_iff]
      · intro i hi
        rw [hrun, BuyAndHoldStrategy.bought_all_none]
        cases i with
        | zero => simp
        | succ i =>
          have hi2 : i < es.length := by simpa using hi
          have hmap : (List.replicate es.length (none : Option SignalIntention))[i]? =
              some none := by
            rw [List.getElem?_replicate]
            simp [hi2]
          simp [hmap, StratEvent.isBar]

/-- C7 witness: the theorem applied to a concrete run of a fill followed
by two bars, showing the single emission at the first bar (index 1). -/
theorem claim_C7_witness :
    ((BuyAndHoldStrategy.fresh.runEvents
        [.fill ⟨.buy, 1⟩, .bar ⟨10⟩, .bar ⟨11⟩]).2.filterMap id =
      [SignalIntention.OPEN_LONG]) ∧
    (((BuyAndHoldStrategy.fresh.runEvents
        [.fill ⟨.buy, 1⟩, .bar ⟨10⟩, .bar ⟨11⟩]).2)[1]? = some (some .OPEN_LONG) ↔
      ((∃ b, ([StratEvent.fill ⟨.buy, 1⟩, .bar ⟨10⟩, .bar ⟨11⟩] : List StratEvent)[1]? =
          some (.bar b)) ∧
        ∀ e ∈ ([StratEvent.fill ⟨.buy, 1⟩, .bar ⟨10⟩, .bar ⟨11⟩] : List StratEvent).take 1,
          e.isBar = false)) := by
  constructor
  · have := (claim_C7 [.fill ⟨.buy, 1⟩, .bar ⟨10⟩, .bar ⟨11⟩]).1
    simpa [StratEvent.isBar] using this
  · exact (claim_C7 [.fill ⟨.buy, 1⟩, .bar ⟨10⟩, .bar ⟨11⟩]).2 1 (by norm_num)

/-- C5: fed the seven closes [10, 10, 10, 10, 9, 11, 11] with fast period 2
and slow period 3 starting flat, the trend-follower detects an upward
cross exactly at the bars where the 2-bar trailing mean of the strictly
prior closes first exceeds their 3-bar trailing mean, emits an open-long
exactly at such bars, and emits no intention at any other bar; on this
input both bar sets are empty, so the run emits nothing at all. -/
theorem claim_C5 :
    SMACrossover.run ⟨2, 3⟩ none [] [10, 10, 10, 10, 9, 11, 11] =
      List.replicate 7 none ∧
    (∀ t, t < 7 →
      (SMACrossover.goldenAt ⟨2, 3⟩ (([10, 10, 10, 10, 9, 11, 11] : List ℚ).take (t + 1)) =
          true ↔ specFirstExceed [10, 10, 10, 10, 9, 11, 11] t)) ∧
    (∀ t, t < 7 →
      ((SMACrossover.run ⟨2, 3⟩ none [] [10, 10, 10, 10, 9, 11, 11])[t]? =
          some (some .OPEN_LONG) ↔ specFirstExceed [10, 10, 10, 10, 9, 11, 11] t)) := by
  have hspec : ∀ t, t < 7 → ¬ specFastExceedsSlow [10, 10, 10, 10, 9, 11, 11] t := by
    intro t ht
    interval_cases t <;>
      norm_num [specFastExceedsSlow, specTrailingMean, lastN, mean]
  have h0 : SMACrossover.on_bar ⟨2, 3⟩ none [10] (some 10) = none := by
    simp only [SMACrossover.on_bar, SMACrossover.barsFor, lastN]
    simp
  have h1 : SMACrossover.on_bar ⟨2, 3⟩ none [10, 10] (some 10) = none := by
    simp only [SMACrossover.on_bar, SMACrossover.barsFor, lastN]
    simp
  have h2 : SMACrossover.on_bar ⟨2, 3⟩ none [10, 10, 10] (some 10) = none := by
    simp only [SMACrossover.on_bar, SMACrossover.barsFor, lastN]
    simp
  have h3 : SMACrossover.on_bar ⟨2, 3⟩ none [10, 10, 10, 10] (some 10) = none := by
    simp only [SMACrossover.on_bar, SMACrossover.barsFor,
      SMACrossover.currentBars, SMACrossover.prevBars, SMACrossover.fastSMA,
      SMACrossover.slowSMA, SMACrossover.prevFastSMA, SMACrossover.prevSlowSMA,
      lastN, mean]
    simp
    norm_num
  have h4 : SMACrossover.on_bar ⟨2, 3⟩ none [10, 10, 10, 10, 9] (some 9) = none := by
    simp only [SMACrossover.on_bar, SMACrossover.barsFor,
      SMACrossover.currentBars, SMACrossover.prevBars, SMACrossover.fastSMA,
      SMACrossover.slowSMA, SMACrossover.prevFastSMA, SMACrossover.prevSlowSMA,
      lastN, mean]
    simp
    norm_num
  have h5 : SMACrossover.on_bar ⟨2, 3⟩ none [10, 10, 10, 10, 9, 11] (some 11) = none := by
    simp only [SMACrossover.on_bar, SMACrossover.barsFor,
      SMACrossover.currentBars, SMACrossover.prevBars, SMACrossover.fastSMA,
      SMACrossover.slowSMA, SMACrossover.prevFastSMA, SMACrossover.prevSlowSMA,
      lastN, mean]
    simp
    norm_num
  have h6 : SMACrossover.on_bar ⟨2, 3⟩ none [10, 10, 10, 10, 9, 11, 11] (some 11) = none := by
    simp only [SMACrossover.on_bar, SMACrossover.barsFor,
      SMACrossover.currentBars, SMACrossover.prevBars, SMACrossover.fastSMA,
      SMACrossover.slowSMA, SMACrossover.prevFastSMA, SMACrossover.prevSlowSMA,
      lastN, mean]
    simp
    norm_num
  have hrun : SMACrossover.run ⟨2, 3⟩ none [] [10, 10, 10, 10, 9, 11, 11] =
      List.replicate 7 none := by
    simp only [SMACrossover.run, List.nil_append, List.cons_append,
      h0, h1, h2, h3, h4, h5, h6]
    rfl
  refine ⟨hrun, ?_, ?_⟩
  · intro t ht
    refine iff_of_false ?_ (fun h => hspec t ht h.1)
    interval_cases t <;>
      (simp only [SMACrossover.goldenAt, SMACrossover.barsFor, SMACrossover.currentBars,
        SMACrossover.prevBars, SMACrossover.fastSMA, SMACrossover.slowSMA,
        SMACrossover.prevFastSMA, SMACrossover.prevSlowSMA, lastN, mean]
       simp) <;>
      norm_num
  · intro t ht
    refine iff_of_false ?_ (fun h => hspec t ht h.1)
    rw [hrun]
    have hrep : (List.replicate 7 (none : Option SignalIntention))[t]? = some none := by
      rw [List.getElem?_replicate]
      simp [ht]
    intro hcontra
    rw [hrep] at hcontra
    exact Option.noConfusion (Option.some.inj hcontra)

/-- C5 witness: the theorem applied at the last bar, t = 6. -/
theorem claim_C5_witness :
    (SMACrossover.goldenAt ⟨2, 3⟩ (([10, 10, 10, 10, 9, 11, 11] : List ℚ).take (6 + 1)) =
        true ↔ specFirstExceed [10, 10, 10, 10, 9, 11, 11] 6) ∧
    ((SMACrossover.run ⟨2, 3⟩ none [] [10, 10, 10, 10, 9, 11, 11])[6]? =
        some (some .OPEN_LONG) ↔ specFirstExceed [10, 10, 10, 10, 9, 11, 11] 6) :=
  ⟨claim_C5.2.1 6 (by norm_num), claim_C5.2.2 6 (by norm_num)⟩
